import Mathlib

/-!
Verification development for the `oc-mirror` repository.

The repository mirrors OpenShift release and operator-catalog images between
container registries and signs/verifies "atomic" container signatures.
The CLI entry point `oc_mirror/scripts/op_mirror.py` is embedded directly;
the library modules (`oc_mirror/ocrelease.py`, `oc_mirror/oprelease.py`,
`oc_mirror/atomicsigner.py`, `oc_mirror/utils.py`) are not part of the
source tree, so their operations are modelled from the specification, as
noted on each definition.

Python strings are modelled as `String` except where character-level
behaviour matters (`str.split`), where `List Char` is used.
-/

set_option maxHeartbeats 1600000
set_option linter.unusedVariables false
set_option linter.unnecessarySeqFocus false

namespace OcMirror

/-- Association-list lookup: first binding wins (Python `dict` lookup /
HTTP store probe by exact path). -/
def alookup {α β : Type} [DecidableEq α] : List (α × β) → α → Option β
  | [], _ => none
  | (k, v) :: rest, key => if k = key then some v else alookup rest key

/-- Association-list update-or-append, preserving first-occurrence order
(Python `dict` insert semantics: a later duplicate key overwrites the value
in place). -/
def upsert {α β : Type} [DecidableEq α] : List (α × β) → α → β → List (α × β)
  | [], k, v => [(k, v)]
  | (k', v') :: rest, k, v =>
    if k' = k then (k, v) :: rest else (k', v') :: upsert rest k v

/-- Effectful map over `Option` (sequencing of fallible fetches). -/
def omapM {α β : Type} (f : α → Option β) : List α → Option (List β)
  | [] => some []
  | a :: as =>
    match f a, omapM f as with
    | some b, some bs => some (b :: bs)
    | _, _ => none

/-- Effectful map over `Except` (sequencing of fallible steps, first error
wins). -/
def emapM {ε α β : Type} (f : α → Except ε β) : List α → Except ε (List β)
  | [] => .ok []
  | a :: as =>
    match f a with
    | .error e => .error e
    | .ok b =>
      match emapM f as with
      | .error e => .error e
      | .ok bs => .ok (b :: bs)

/-- Effectful fold over `Option`. -/
def ofoldM {σ α : Type} (f : σ → α → Option σ) : σ → List α → Option σ
  | s, [] => some s
  | s, a :: as =>
    match f s a with
    | some s' => ofoldM f s' as
    | none => none

theorem alookup_upsert {α β : Type} [DecidableEq α]
    (l : List (α × β)) (k k' : α) (v : β) :
    alookup (upsert l k v) k' = if k' = k then some v else alookup l k' := by
  induction l with
  | nil =>
    simp only [upsert, alookup]
    by_cases h : k' = k
    · subst h; simp
    · rw [if_neg (fun hh => h hh.symm), if_neg h]
  | cons p rest ih =>
    obtain ⟨pk, pv⟩ := p
    by_cases h1 : pk = k
    · subst h1
      by_cases h2 : k' = pk
      · subst h2; simp [upsert, alookup]
      · simp only [upsert, if_pos rfl, alookup]
        rw [if_neg (fun hh => h2 hh.symm), if_neg h2, if_neg (fun hh => h2 hh.symm)]
    · simp only [upsert, if_neg h1, alookup]
      by_cases h2 : pk = k'
      · subst h2
        rw [if_neg h1]
        simp
      · rw [if_neg h2, if_neg h2, ih]

namespace EndpointTranslation

/-- Modelled from the spec: `TypingRegexSubstitution` lives in
`oc_mirror/oprelease.py`, which is absent from `src/`.  A compiled regex
is abstracted by its boolean match probe on an endpoint string;
`replacement` is the replacement endpoint (the CLI always supplies the
index endpoint, `op_mirror.py` lines 148-155 and 198-203). -/
structure TypingRegexSubstitution where
  matchesEndpoint : String → Bool
  replacement : String

/-- Modelled from the spec: section 4.1 (EndpointTranslator), absent from
`src/` — "patterns are tried in declaration order; the first pattern that
matches replaces the endpoint; no further patterns are tried and no
repeated/cumulative substitution occurs"; with no failure mode beyond
"no pattern matched" (endpoint unchanged). -/
def translateEndpoint (rules : List TypingRegexSubstitution)
    (endpoint : String) : String :=
  match rules.find? (fun r => r.matchesEndpoint endpoint) with
  | some r => r.replacement
  | none => endpoint

theorem translateEndpoint_of_first_match (pre post : List TypingRegexSubstitution)
    (r : TypingRegexSubstitution) (e : String)
    (hpre : ∀ q ∈ pre, q.matchesEndpoint e = false)
    (hr : r.matchesEndpoint e = true) :
    translateEndpoint (pre ++ r :: post) e = r.replacement := by
  unfold translateEndpoint
  rw [List.find?_append]
  have h1 : pre.find? (fun q => q.matchesEndpoint e) = none :=
    List.find?_eq_none.mpr (fun q hq => by simp [hpre q hq])
  rw [h1]
  simp [List.find?_cons_of_pos, hr]

theorem translateEndpoint_of_no_match (rules : List TypingRegexSubstitution)
    (e : String) (h : ∀ q ∈ rules, q.matchesEndpoint e = false) :
    translateEndpoint rules e = e := by
  unfold translateEndpoint
  rw [List.find?_eq_none.mpr (fun q hq => by simp [h q hq])]

/-- Ordered substitution rules under which an already-translated endpoint
is translated again to a different value: the first rule rewrites
`"registry.src"` to `"mirror.a"`, the second rewrites `"mirror.a"` to
`"mirror.b"`. -/
def chainedRules : List TypingRegexSubstitution :=
  [⟨fun s => s == "registry.src", "mirror.a"⟩,
   ⟨fun s => s == "mirror.a", "mirror.b"⟩]

/-- C7 counterexample: with the chained rule list, translating the
already-translated endpoint `"mirror.a"` yields `"mirror.b"`, so applying
the translation twice differs from applying it once — the idempotence half
of the claim fails. -/
theorem C7_translate_idempotence_counterexample :
    translateEndpoint chainedRules
        (translateEndpoint chainedRules "registry.src") ≠
      translateEndpoint chainedRules "registry.src" := by
  decide

/-- C7 (amended): endpoint translation is first-match-wins — the first
matching pattern in declaration order substitutes (no cumulative
substitution), and an endpoint matching no pattern is unchanged; applying
the translation twice agrees with applying it once provided every rule's
replacement is itself left fixed by the translation (which the chained
counterexample violates). -/
theorem C7_translate_first_match_wins_and_conditional_idempotence :
    (∀ (pre post : List TypingRegexSubstitution) (r : TypingRegexSubstitution)
        (e : String), (∀ q ∈ pre, q.matchesEndpoint e = false) →
        r.matchesEndpoint e = true →
        translateEndpoint (pre ++ r :: post) e = r.replacement) ∧
    (∀ (rules : List TypingRegexSubstitution) (e : String),
        (∀ q ∈ rules, q.matchesEndpoint e = false) →
        translateEndpoint rules e = e) ∧
    (∀ rules : List TypingRegexSubstitution,
        (∀ q ∈ rules, translateEndpoint rules q.replacement = q.replacement) →
        ∀ e, translateEndpoint rules (translateEndpoint rules e) =
          translateEndpoint rules e) := by
  refine ⟨translateEndpoint_of_first_match, translateEndpoint_of_no_match, ?_⟩
  intro rules hfix e
  unfold translateEndpoint
  cases hf : rules.find? (fun r => r.matchesEndpoint e) with
  | none => rw [hf]
  | some r =>
    have hr : r ∈ rules := List.mem_of_find?_eq_some hf
    have := hfix r hr
    unfold translateEndpoint at this
    exact this

/-- C7 witness: the amended theorem applied at concrete inputs — a
single-rule list whose replacement matches no pattern is idempotent, the
first matching rule wins past a non-matching one, and a non-matching
endpoint is unchanged. -/
theorem C7_translate_first_match_wins_and_conditional_idempotence_witness :
    translateEndpoint
        [⟨fun s => s == "quay.io", "mirror.local"⟩]
        (translateEndpoint [⟨fun s => s == "quay.io", "mirror.local"⟩] "quay.io") =
      translateEndpoint [⟨fun s => s == "quay.io", "mirror.local"⟩] "quay.io" ∧
    translateEndpoint
        ([⟨fun s => s == "other.io", "x"⟩] ++
          ⟨fun s => s == "quay.io", "mirror.local"⟩ :: []) "quay.io" = "mirror.local" ∧
    translateEndpoint [⟨fun s => s == "other.io", "x"⟩] "quay.io" = "quay.io" := by
  refine ⟨?_, ?_, ?_⟩
  · exact C7_translate_first_match_wins_and_conditional_idempotence.2.2
      [⟨fun s => s == "quay.io", "mirror.local"⟩] (by decide) "quay.io"
  · exact C7_translate_first_match_wins_and_conditional_idempotence.1
      [⟨fun s => s == "other.io", "x"⟩] [] ⟨fun s => s == "quay.io", "mirror.local"⟩
      "quay.io" (by decide) (by decide)
  · exact C7_translate_first_match_wins_and_conditional_idempotence.2.1
      [⟨fun s => s == "other.io", "x"⟩] "quay.io" (by decide)

end EndpointTranslation

namespace OpMirrorScript

/-- Python `str.split(sep)` for a one-character separator, over the
character-list model of strings: `"a:b:c".split(":") == ["a", "b", "c"]`,
`"a:".split(":") == ["a", ""]`, `"".split(":") == [""]`. -/
def pySplit (sep : Char) : List Char → List (List Char)
  | [] => [[]]
  | ch :: rest =>
    if ch = sep then [] :: pySplit sep rest
    else
      match pySplit sep rest with
      | [] => [[ch]]
      | s :: ss => (ch :: s) :: ss

theorem pySplit_ne_nil (sep : Char) (l : List Char) : pySplit sep l ≠ [] := by
  induction l with
  | nil => simp [pySplit]
  | cons ch rest ih =>
    unfold pySplit
    by_cases h : ch = sep
    · simp [h]
    · rw [if_neg h]
      cases hr : pySplit sep rest with
      | nil => simp
      | cons s ss => simp

theorem pySplit_of_not_mem (sep : Char) (l : List Char) (h : sep ∉ l) :
    pySplit sep l = [l] := by
  induction l with
  | nil => rfl
  | cons ch rest ih =>
    have hch : ¬ ch = sep := fun hh => h (hh ▸ List.mem_cons_self ch rest)
    have hrest : sep ∉ rest := fun hh => h (List.mem_cons_of_mem ch hh)
    unfold pySplit
    rw [if_neg hch, ih hrest]

theorem pySplit_append (sep : Char) (p rest : List Char) (h : sep ∉ p) :
    pySplit sep (p ++ sep :: rest) = p :: pySplit sep rest := by
  induction p with
  | nil => simp [pySplit]
  | cons ch ptail ih =>
    have hch : ¬ ch = sep := fun hh => h (hh ▸ List.mem_cons_self ch ptail)
    have hp : sep ∉ ptail := fun hh => h (List.mem_cons_of_mem ch hh)
    rw [List.cons_append]
    conv_lhs => rw [pySplit]
    rw [if_neg hch, ih hp]

theorem pySplit_length (sep : Char) (l : List Char) :
    (pySplit sep l).length = l.count sep + 1 := by
  induction l with
  | nil => simp [pySplit]
  | cons ch rest ih =>
    unfold pySplit
    by_cases h : ch = sep
    · subst h
      simp [List.count_cons_self, ih]
    · rw [if_neg h]
      cases hr : pySplit sep rest with
      | nil => exact absurd hr (pySplit_ne_nil sep rest)
      | cons s ss =>
        have := ih
        rw [hr] at this
        simp only [List.length_cons] at this ⊢
        rw [List.count_cons_of_ne (fun hh => h hh.symm)]
        omega

/-- One element of the comprehension in `_convert_package_channel`
(`op_mirror.py` lines 52-55): an argument containing `":"` is `split(":")`
and the split is later unpacked as a two-element `(package, channel)` pair
— raising `ValueError` unless it has exactly two parts — while a colon-free
argument becomes the pair `(item, None)`. -/
def convertItem (item : List Char) :
    Except Unit (List Char × Option (List Char)) :=
  if ':' ∈ item then
    match pySplit ':' item with
    | [p, c] => .ok (p, some c)
    | _ => .error ()
  else .ok (item, none)

/-- Result of `_convert_package_channel`: `None` and the empty list are
falsy in Python and are returned unchanged; a non-empty argument list is
converted to a `dict` (modelled as an insertion-ordered association
list). -/
inductive PCResult
  | noneVal
  | listVal (l : List (List Char))
  | dictVal (d : List (List Char × Option (List Char)))
deriving DecidableEq

/-- `_convert_package_channel` (`op_mirror.py` lines 49-57): converts a
tuple of `":"`-separated pairs into a dictionary, or returns a falsy
argument unchanged; the dict comprehension's two-element unpacking raises
`ValueError` on a split with more than two parts. -/
def _convert_package_channel :
    Option (List (List Char)) → Except Unit PCResult
  | none => .ok .noneVal
  | some l =>
    if l.isEmpty then .ok (.listVal l)
    else
      match emapM convertItem l with
      | .error e => .error e
      | .ok pairs =>
        .ok (.dictVal (pairs.foldl (fun d p => upsert d p.1 p.2) []))

theorem convertItem_error_of_two_colons (item : List Char)
    (h : 2 ≤ item.count ':') : convertItem item = .error () := by
  have hmem : ':' ∈ item := by
    have : 0 < item.count ':' := by omega
    exact List.count_pos_iff.mp this
  have hlen : 3 ≤ (pySplit ':' item).length := by
    rw [pySplit_length]
    omega
  unfold convertItem
  rw [if_pos hmem]
  rcases hsplit : pySplit ':' item with _ | ⟨a, _ | ⟨b, _ | ⟨c, rest⟩⟩⟩ <;>
    rw [hsplit] at hlen <;> simp at hlen ⊢

theorem emapM_error_of_mem {ε α β : Type} (f : α → Except ε β) (l : List α)
    (a : α) (ha : a ∈ l) (e : ε) (hf : f a = .error e) :
    ∃ e', emapM f l = .error e' := by
  induction l with
  | nil => exact absurd ha (List.not_mem_nil a)
  | cons x xs ih =>
    unfold emapM
    cases hx : f x with
    | error e' => exact ⟨e', rfl⟩
    | ok b =>
      rcases List.mem_cons.mp ha with h | h
      · subst h
        rw [hx] at hf
        exact absurd hf (by simp)
      · obtain ⟨e', he'⟩ := ih h
        rw [he']
        exact ⟨e', rfl⟩

theorem alookup_foldl_upsert_of_not_mem {α β : Type} [DecidableEq α]
    (pairs : List (α × β)) (acc : List (α × β)) (k : α)
    (h : ∀ p ∈ pairs, p.1 ≠ k) :
    alookup (pairs.foldl (fun d p => upsert d p.1 p.2) acc) k = alookup acc k := by
  induction pairs generalizing acc with
  | nil => rfl
  | cons p ps ih =>
    rw [List.foldl_cons]
    rw [ih _ (fun q hq => h q (List.mem_cons_of_mem p hq))]
    rw [alookup_upsert]
    rw [if_neg (fun hh => h p (List.mem_cons_self p ps) hh.symm)]

/-- C10: `_convert_package_channel` maps every `"package:channel"` argument
(one colon) to the dictionary entry `package → channel` and every
colon-free argument to `package → None`, with a later duplicate package
overriding an earlier one; `None` and the empty argument list are returned
unchanged with no dictionary built; and an argument containing more than
one colon makes the conversion fail because the two-element unpacking of
the split result raises. -/
theorem C10_convert_package_channel_spec :
    (_convert_package_channel none = .ok .noneVal) ∧
    (_convert_package_channel (some []) = .ok (.listVal [])) ∧
    (∀ p c : List Char, ':' ∉ p → ':' ∉ c →
      convertItem (p ++ ':' :: c) = .ok (p, some c)) ∧
    (∀ item : List Char, ':' ∉ item → convertItem item = .ok (item, none)) ∧
    (∀ (ps1 ps2 : List (List Char × Option (List Char)))
        (k : List Char) (v : Option (List Char)),
      (∀ p ∈ ps2, p.1 ≠ k) →
      alookup ((ps1 ++ (k, v) :: ps2).foldl
        (fun d p => upsert d p.1 p.2) []) k = some v) ∧
    (∀ (l : List (List Char)) (item : List Char), item ∈ l →
      2 ≤ item.count ':' → _convert_package_channel (some l) = .error ()) := by
  refine ⟨rfl, rfl, ?_, ?_, ?_, ?_⟩
  · intro p c hp hc
    have hmem : ':' ∈ p ++ ':' :: c :=
      List.mem_append.mpr (Or.inr (List.mem_cons_self _ _))
    unfold convertItem
    rw [if_pos hmem, pySplit_append ':' p c hp, pySplit_of_not_mem ':' c hc]
  · intro item h
    unfold convertItem
    rw [if_neg h]
  · intro ps1 ps2 k v h
    rw [List.foldl_append, List.foldl_cons]
    rw [alookup_foldl_upsert_of_not_mem ps2 _ k h]
    rw [alookup_upsert, if_pos rfl]
  · intro l item hmem hcount
    have hitem : convertItem item = .error () :=
      convertItem_error_of_two_colons item hcount
    obtain ⟨e', he'⟩ := emapM_error_of_mem convertItem l item hmem () hitem
    have hne : l.isEmpty = false := by
      cases l with
      | nil => exact absurd hmem (List.not_mem_nil item)
      | cons x xs => rfl
    cases e'
    simp only [_convert_package_channel, hne, Bool.false_eq_true, if_false, he']

/-- C10 witness: the theorem applied at concrete inputs — `"pkg:ch"` maps
to `pkg → ch`, `"pkg"` maps to `pkg → None`, a later `"a"` entry overrides
an earlier one, and the two-colon argument `"a:b:c"` makes the conversion
raise. -/
theorem C10_convert_package_channel_spec_witness :
    convertItem (['p', 'k', 'g'] ++ ':' :: ['c', 'h']) =
      .ok (['p', 'k', 'g'], some ['c', 'h']) ∧
    convertItem ['p', 'k', 'g'] = .ok (['p', 'k', 'g'], none) ∧
    alookup (([(['a'], some ['1'])] ++ (['a'], some ['2']) :: []).foldl
      (fun d p => upsert d p.1 p.2) []) ['a'] = some (some ['2']) ∧
    _convert_package_channel (some [['a', ':', 'b', ':', 'c']]) = .error () :=
  ⟨C10_convert_package_channel_spec.2.2.1 ['p', 'k', 'g'] ['c', 'h']
      (by decide) (by decide),
   C10_convert_package_channel_spec.2.2.2.1 ['p', 'k', 'g'] (by decide),
   C10_convert_package_channel_spec.2.2.2.2.1 [(['a'], some ['1'])] []
      ['a'] (some ['2']) (by decide),
   C10_convert_package_channel_spec.2.2.2.2.2 [['a', ':', 'b', ':', 'c']]
      ['a', ':', 'b', ':', 'c'] (by decide) (by decide)⟩

/-- Observable effects of one CLI command invocation: the status passed to
`sys.exit` (`none` when the body returned normally), whether the traceback
was printed, whether the exception was logged at FATAL, and whether the
registry client handle was closed. -/
structure TypingCommandOutcome where
  exit_code : Option Nat
  printed_traceback : Bool
  logged_fatal : Bool
  registry_closed : Bool
deriving DecidableEq

/-- `dump` (`op_mirror.py` lines 136-179): the command body (metadata
retrieval and logging, abstracted as an `Except` value since its network
effects are external) runs under `try/except/finally`; an escaping
exception is logged at FATAL when `verbosity > 0`, its traceback printed
when `verbosity > LOGGING_DEFAULT`, and `sys.exit(1)` is called; the
`finally` block closes the registry client on every path.
`logging_default` abstracts the external constant `LOGGING_DEFAULT`. -/
def dump {ε α : Type} (body : Except ε α)
    (verbosity logging_default : Nat) : TypingCommandOutcome :=
  match body with
  | .ok _ =>
    { exit_code := none, printed_traceback := false, logged_fatal := false,
      registry_closed := true }
  | .error _ =>
    { exit_code := some 1,
      printed_traceback := decide (verbosity > logging_default),
      logged_fatal := decide (verbosity > 0),
      registry_closed := true }

/-- `mirror` (`op_mirror.py` lines 188-235): the identical
`try/except/finally` wrapper around the mirroring body. -/
def mirror {ε α : Type} (body : Except ε α)
    (verbosity logging_default : Nat) : TypingCommandOutcome :=
  match body with
  | .ok _ =>
    { exit_code := none, printed_traceback := false, logged_fatal := false,
      registry_closed := true }
  | .error _ =>
    { exit_code := some 1,
      printed_traceback := decide (verbosity > logging_default),
      logged_fatal := decide (verbosity > 0),
      registry_closed := true }

/-- C9: for both the `dump` and the `mirror` subcommand, an exception
escaping the command body makes the process exit with status code 1, the
stack trace is printed exactly when verbosity exceeds the default
threshold, and the registry client handle is closed on every path, success
or failure. -/
theorem C9_command_error_handling {ε α : Type} (body : Except ε α)
    (verbosity logging_default : Nat) :
    ((∃ e, body = .error e) →
      (dump body verbosity logging_default).exit_code = some 1 ∧
      (mirror body verbosity logging_default).exit_code = some 1 ∧
      ((dump body verbosity logging_default).printed_traceback = true ↔
        verbosity > logging_default) ∧
      ((mirror body verbosity logging_default).printed_traceback = true ↔
        verbosity > logging_default)) ∧
    (dump body verbosity logging_default).registry_closed = true ∧
    (mirror body verbosity logging_default).registry_closed = true := by
  constructor
  · rintro ⟨e, rfl⟩
    simp [dump, mirror]
  · cases body <;> simp [dump, mirror]

/-- C9 witness: the theorem applied to a failing body at verbosity 3 with
default threshold 2. -/
theorem C9_command_error_handling_witness :
    (dump (.error () : Except Unit Nat) 3 2).exit_code = some 1 ∧
    (mirror (.error () : Except Unit Nat) 3 2).exit_code = some 1 ∧
    (dump (.error () : Except Unit Nat) 3 2).printed_traceback = true ∧
    (dump (.error () : Except Unit Nat) 3 2).registry_closed = true ∧
    (mirror (.error () : Except Unit Nat) 3 2).registry_closed = true := by
  obtain ⟨h1, h2, h3⟩ :=
    C9_command_error_handling (.error () : Except Unit Nat) 3 2
  obtain ⟨ha, hb, hc, _⟩ := h1 ⟨(), rfl⟩
  exact ⟨ha, hb, hc.mpr (by decide), h2, h3⟩

end OpMirrorScript

/-- `ImageName` (from `docker_registry_client_async`, an external
collaborator): an image reference `{endpoint, repository, tag|digest}`. -/
structure ImageName where
  endpoint : String
  repository : String
  tag : Option String
  digest : Option String
deriving DecidableEq

namespace AtomicSignerModel

/-- GPG ownertrust classification of a verifying key. -/
inductive GPGTrust
  | undefined
  | never
  | marginal
  | fully
  | ultimate
deriving DecidableEq

/-- Numeric order of ownertrust levels. -/
def GPGTrust.rank : GPGTrust → Nat
  | .undefined => 0
  | .never => 1
  | .marginal => 2
  | .fully => 3
  | .ultimate => 4

/-- `trust ≥ threshold` acceptance comparison. -/
def trustAtLeast (t threshold : GPGTrust) : Bool :=
  decide (threshold.rank ≤ t.rank)

/-- Modelled from the spec: the canonical atomic-signature payload shape
(`docker-manifest-digest`, `type`); `oc_mirror/atomicsigner.py` is absent
from `src/`. -/
structure AtomicPayload where
  dockerManifestDigest : String
  ptype : String
deriving DecidableEq

/-- A clear-signed blob, abstracting the GPG engine (an external
collaborator): the embedded payload plus the id of the key that signed
it. -/
structure SignedBlob where
  payload : AtomicPayload
  signerKeyId : String
deriving DecidableEq

/-- Storage path of one atomic signature inside a store, rendered as
`<pfx>/signature-<ordinal>` with `pfx = sha256=<hex(digest)>`. -/
structure SigPath where
  pfx : String
  ordinal : Nat
deriving DecidableEq

/-- Contents of one signature store: bindings from path to stored blob. -/
abbrev SigStore := List (SigPath × SignedBlob)

/-- The ordered configured signature-store locations with their
contents. -/
abbrev SigWorld := List (String × SigStore)

/-- Modelled from the spec: `AtomicSigner` state — `keyring` abstracts the
GnuPG home directory as a map from key id to ownertrust, `keyid` is the
configured signing key, `threshold` the configured acceptance trust
level. -/
structure AtomicSigner where
  keyring : List (String × GPGTrust)
  keyid : String
  threshold : GPGTrust
  passphrase : String

/-- `sha256=<hex>` path segment of a digest string `sha256:<hex>`
(`digest.replace(":", "=")` in the tests), modelled character-wise. -/
def digestSegment (d : String) : String :=
  String.mk (d.toList.map (fun c => if c = ':' then '=' else c))

/-- Smallest ordinal `≥ n` not in `occupied`: probe `n` and increment
while the slot is taken. -/
def firstFreeFrom (occupied : List Nat) (n : Nat) : Nat :=
  if h : n ∈ occupied then firstFreeFrom (occupied.erase n) (n + 1) else n
termination_by occupied.length
decreasing_by
  have h1 := List.length_erase_of_mem h
  have h2 : 0 < occupied.length := List.length_pos_of_mem h
  omega

/-- Ordinals already occupied at a path prefix in one store. -/
def occupiedOrdinals (store : SigStore) (pfx : String) : List Nat :=
  (store.filter (fun e => e.1.pfx == pfx)).map (fun e => e.1.ordinal)

/-- The smallest unused signature ordinal at a path prefix, probed
starting at 1. -/
def freeOrdinal (store : SigStore) (pfx : String) : Nat :=
  firstFreeFrom (occupiedOrdinals store pfx) 1

/-- The canonical payload for a digest, clear-signed with the configured
key. -/
def signBlob (signer : AtomicSigner) (d : String) : SignedBlob :=
  { payload := { dockerManifestDigest := d,
                 ptype := "atomic container signature" },
    signerKeyId := signer.keyid }

/-- Store one signed blob at the smallest unused ordinal of a path prefix,
returning the updated store and the ordinal used. -/
def storePut (store : SigStore) (pfx : String) (blob : SignedBlob) :
    SigStore × Nat :=
  let n := freeOrdinal store pfx
  ((⟨pfx, n⟩, blob) :: store, n)

/-- Modelled from the spec: `atomicsign(digest, image_name)` — builds the
canonical payload, clear-signs it with the configured key, computes the
storage path `sha256=<hex(digest)>/signature-<n>` with `n` the smallest
unused ordinal probed from 1, publishes the signed bytes to every
configured store location, and returns the resolved URL of the first
published copy.  `none` when no store is configured. -/
def atomicsign (signer : AtomicSigner) (world : SigWorld) (d : String)
    (image_name : ImageName) : Option (SigWorld × String) :=
  match world with
  | [] => none
  | (loc0, st0) :: rest =>
    let pfx := digestSegment d
    let blob := signBlob signer d
    let put0 := storePut st0 pfx blob
    let rest' := rest.map (fun e => (e.1, (storePut e.2 pfx blob).1))
    some ((loc0, put0.1) :: rest',
      loc0 ++ "/" ++ pfx ++ "/signature-" ++ toString put0.2)

/-- Outcome of the raw GPG verification primitive (an external
collaborator): a key present in the keyring verifies with "signature
valid" at its recorded ownertrust, an unknown key does not. -/
structure GpgStatus where
  fingerprint : Option String
  status : String
  trust : GPGTrust

/-- The raw GPG verification of one signed blob against the signer's
keyring. -/
def gpgVerify (signer : AtomicSigner) (blob : SignedBlob) : GpgStatus :=
  match alookup signer.keyring blob.signerKeyId with
  | some t =>
    { fingerprint := some blob.signerKeyId, status := "signature valid",
      trust := t }
  | none =>
    { fingerprint := none, status := "no public key", trust := .undefined }

/-- Result of verifying one candidate signature. -/
structure VerificationResult where
  fingerprint : Option String
  status_atomic : Option String
  status_gpg : String
  trust : GPGTrust
  type : String
  valid : Bool
deriving DecidableEq

/-- Modelled from the spec: classification of one fetched signed blob in
`atomicverify` — when the embedded payload's digest matches the probed
digest (and the blob is an atomic signature), type `"atomicsigner"`,
`statusAtomic = null`, and validity from the GPG status and the trust
threshold; otherwise (tampered or not an atomic signature) type `"gpg"`,
a non-null `statusAtomic`, `fingerprint = null` and `valid = false`
regardless of the raw GPG status. -/
def mkVerifyResult (signer : AtomicSigner) (d : String)
    (blob : SignedBlob) : VerificationResult :=
  let raw := gpgVerify signer blob
  if blob.payload.dockerManifestDigest = d ∧
      blob.payload.ptype = "atomic container signature" then
    { fingerprint := raw.fingerprint, status_atomic := none,
      status_gpg := raw.status, trust := raw.trust, type := "atomicsigner",
      valid := decide (raw.status = "signature valid") &&
        trustAtLeast raw.trust signer.threshold }
  else
    { fingerprint := none, status_atomic := some "atomic payload mismatch",
      status_gpg := raw.status, trust := .undefined, type := "gpg",
      valid := false }

/-- Sequential ordinal probe in one store: fetch `signature-<n>`,
`signature-<n+1>`, ... stopping at the first missing ordinal.  `fuel`
bounds the walk; callers pass `store.length + 1`, which cannot be
exhausted because each found ordinal is a distinct occupied path. -/
def collectFrom (store : SigStore) (pfx : String) (n fuel : Nat) :
    List SignedBlob :=
  match fuel with
  | 0 => []
  | fuel' + 1 =>
    match alookup store ⟨pfx, n⟩ with
    | some b => b :: collectFrom store pfx (n + 1) fuel'
    | none => []

/-- All signature candidates for a path prefix across the configured
stores, in store order. -/
def collectAll (world : SigWorld) (pfx : String) : List SignedBlob :=
  (world.map (fun e => collectFrom e.2 pfx 1 (e.2.length + 1))).flatten

/-- Modelled from the spec: `atomicverify(digest, image_name)` — probe
ordinals sequentially in every configured store, classify each fetched
blob, and return the first valid result, else the last attempted result
(preserving diagnostic detail for the caller); `none` when no signature
was found at all. -/
def atomicverify (signer : AtomicSigner) (world : SigWorld) (d : String)
    (image_name : ImageName) : Option VerificationResult :=
  let results :=
    (collectAll world (digestSegment d)).map (mkVerifyResult signer d)
  match results.find? (fun r => r.valid) with
  | some r => some r
  | none => results.getLast?

theorem firstFreeFrom_le (occupied : List Nat) (n : Nat) :
    n ≤ firstFreeFrom occupied n := by
  induction occupied, n using firstFreeFrom.induct with
  | case1 occupied n h ih =>
    unfold firstFreeFrom
    rw [dif_pos h]
    omega
  | case2 occupied n h =>
    unfold firstFreeFrom
    rw [dif_neg h]

theorem firstFreeFrom_not_mem (occupied : List Nat) (n : Nat) :
    firstFreeFrom occupied n ∉ occupied := by
  induction occupied, n using firstFreeFrom.induct with
  | case1 occupied n h ih =>
    unfold firstFreeFrom
    rw [dif_pos h]
    intro hmem
    have hge := firstFreeFrom_le (occupied.erase n) (n + 1)
    have hne : firstFreeFrom (occupied.erase n) (n + 1) ≠ n := by omega
    exact ih ((List.mem_erase_of_ne hne).mpr hmem)
  | case2 occupied n h =>
    unfold firstFreeFrom
    rw [dif_neg h]
    exact h

theorem firstFreeFrom_min (occupied : List Nat) (n : Nat) :
    ∀ m, n ≤ m → m < firstFreeFrom occupied n → m ∈ occupied := by
  induction occupied, n using firstFreeFrom.induct with
  | case1 occupied n h ih =>
    intro m h1 h2
    unfold firstFreeFrom at h2
    rw [dif_pos h] at h2
    by_cases hm : m = n
    · subst hm; exact h
    · exact List.mem_of_mem_erase (ih m (by omega) h2)
  | case2 occupied n h =>
    intro m h1 h2
    unfold firstFreeFrom at h2
    rw [dif_neg h] at h2
    omega

theorem firstFreeFrom_nil (n : Nat) : firstFreeFrom [] n = n := by
  unfold firstFreeFrom
  rw [dif_neg (List.not_mem_nil n)]

theorem occupied_iff_lookup (store : SigStore) (pfx : String) (n : Nat) :
    n ∈ occupiedOrdinals store pfx ↔
      (alookup store ⟨pfx, n⟩).isSome = true := by
  induction store with
  | nil => simp [occupiedOrdinals, alookup]
  | cons e rest ih =>
    obtain ⟨⟨epfx, eord⟩, eblob⟩ := e
    by_cases hp : epfx = pfx
    · subst hp
      by_cases ho : eord = n
      · subst ho
        simp [occupiedOrdinals, List.filter, alookup]
      · simp only [occupiedOrdinals, List.filter, beq_self_eq_true, List.map]
        rw [show (alookup ((⟨⟨epfx, eord⟩, eblob⟩ : SigPath × SignedBlob) ::
          rest) ⟨epfx, n⟩) = alookup rest ⟨epfx, n⟩ from by
            simp [alookup, SigPath.mk.injEq, ho]]
        rw [← occupiedOrdinals] at *
        have hne : ¬ n = eord := fun hh => ho hh.symm
        simp [List.mem_cons, hne, ih]
    · have hb : ((⟨epfx, eord⟩ : SigPath).pfx == pfx) = false := by
        simp [hp]
      simp only [occupiedOrdinals, List.filter, hb]
      rw [show (alookup ((⟨⟨epfx, eord⟩, eblob⟩ : SigPath × SignedBlob) ::
        rest) ⟨pfx, n⟩) = alookup rest ⟨pfx, n⟩ from by
          simp [alookup, SigPath.mk.injEq, hp]]
      exact ih

theorem alookup_freeOrdinal (store : SigStore) (pfx : String) :
    alookup store ⟨pfx, freeOrdinal store pfx⟩ = none := by
  have h := firstFreeFrom_not_mem (occupiedOrdinals store pfx) 1
  rw [occupied_iff_lookup] at h
  rw [show freeOrdinal store pfx =
    firstFreeFrom (occupiedOrdinals store pfx) 1 from rfl] at *
  cases hl : alookup store ⟨pfx, firstFreeFrom (occupiedOrdinals store pfx) 1⟩ with
  | none => rfl
  | some b => rw [hl] at h; simp at h

theorem alookup_below_freeOrdinal (store : SigStore) (pfx : String) (m : Nat)
    (h1 : 1 ≤ m) (h2 : m < freeOrdinal store pfx) :
    alookup store ⟨pfx, m⟩ ≠ none := by
  have h := firstFreeFrom_min (occupiedOrdinals store pfx) 1 m h1 h2
  rw [occupied_iff_lookup] at h
  intro hn
  rw [hn] at h
  simp at h

theorem storePut_preserves (store : SigStore) (pfx : String)
    (blob : SignedBlob) (p : SigPath) (hp : alookup store p ≠ none) :
    alookup (storePut store pfx blob).1 p = alookup store p := by
  show alookup ((⟨pfx, freeOrdinal store pfx⟩, blob) :: store) p = _
  by_cases h : (⟨pfx, freeOrdinal store pfx⟩ : SigPath) = p
  · exact absurd (h ▸ alookup_freeOrdinal store pfx) hp
  · simp [alookup, h]

theorem storePut_lookup_new (store : SigStore) (pfx : String)
    (blob : SignedBlob) :
    alookup (storePut store pfx blob).1 ⟨pfx, freeOrdinal store pfx⟩ =
      some blob := by
  simp [storePut, alookup]

theorem alookup_of_clean (store : SigStore) (pfx : String) (n : Nat)
    (h : ∀ e ∈ store, e.1.pfx ≠ pfx) : alookup store ⟨pfx, n⟩ = none := by
  induction store with
  | nil => rfl
  | cons e rest ih =>
    have he : e.1.pfx ≠ pfx := h e (List.mem_cons_self e rest)
    have hne : e.1 ≠ (⟨pfx, n⟩ : SigPath) := by
      intro hh
      exact he (by rw [hh])
    obtain ⟨ep, eb⟩ := e
    simp only [alookup]
    rw [if_neg hne]
    exact ih (fun q hq => h q (List.mem_cons_of_mem _ hq))

theorem occupiedOrdinals_of_clean (store : SigStore) (pfx : String)
    (h : ∀ e ∈ store, e.1.pfx ≠ pfx) : occupiedOrdinals store pfx = [] := by
  unfold occupiedOrdinals
  rw [List.filter_eq_nil_iff.mpr (fun e he => by simp [h e he])]
  rfl

theorem freeOrdinal_of_clean (store : SigStore) (pfx : String)
    (h : ∀ e ∈ store, e.1.pfx ≠ pfx) : freeOrdinal store pfx = 1 := by
  unfold freeOrdinal
  rw [occupiedOrdinals_of_clean store pfx h, firstFreeFrom_nil]

theorem forall2_map_self {α : Type} (f : α → α) (P : α → α → Prop)
    (l : List α) (h : ∀ a ∈ l, P a (f a)) : List.Forall₂ P l (l.map f) := by
  induction l with
  | nil => simp
  | cons a as ih =>
    simp only [List.map]
    exact List.Forall₂.cons (h a (List.mem_cons_self a as))
      (ih (fun b hb => h b (List.mem_cons_of_mem a hb)))

/-- C6: `atomicsign(d, r)` stores the signature at path
`sha256=<hex(d)>/signature-<n>` where `n` is the smallest unused ordinal
at that path prefix (probed starting at 1, incremented until an empty
slot), so existing signatures for the same digest are never overwritten;
the signed bytes are published to every configured store; and the
returned URL is that of the first published copy, containing the
`sha256=<hex>` segment and a `signature-<n>` component. -/
theorem C6_atomicsign_path_discipline (signer : AtomicSigner)
    (world : SigWorld) (d : String) (image_name : ImageName)
    (loc0 : String) (st0 : SigStore) (rest : SigWorld)
    (hworld : world = (loc0, st0) :: rest)
    (world' : SigWorld) (url : String)
    (hsign : atomicsign signer world d image_name = some (world', url)) :
    (alookup st0 ⟨digestSegment d, freeOrdinal st0 (digestSegment d)⟩ =
        none ∧
      ∀ m, 1 ≤ m → m < freeOrdinal st0 (digestSegment d) →
        alookup st0 ⟨digestSegment d, m⟩ ≠ none) ∧
    List.Forall₂ (fun (e e' : String × SigStore) =>
      e.1 = e'.1 ∧
      (∀ p : SigPath, alookup e.2 p ≠ none →
        alookup e'.2 p = alookup e.2 p) ∧
      alookup e'.2 ⟨digestSegment d, freeOrdinal e.2 (digestSegment d)⟩ =
        some (signBlob signer d)) world world' ∧
    url = loc0 ++ "/" ++ digestSegment d ++ "/signature-" ++
      toString (freeOrdinal st0 (digestSegment d)) := by
  subst hworld
  unfold atomicsign at hsign
  simp only [Option.some.injEq, Prod.mk.injEq] at hsign
  obtain ⟨h1, h2⟩ := hsign
  subst h1
  subst h2
  refine ⟨⟨alookup_freeOrdinal st0 (digestSegment d),
    fun m hm1 hm2 => alookup_below_freeOrdinal st0 (digestSegment d) m hm1 hm2⟩,
    ?_, rfl⟩
  refine List.Forall₂.cons
    ⟨rfl, fun p hp => storePut_preserves st0 (digestSegment d) _ p hp,
      storePut_lookup_new st0 (digestSegment d) _⟩ ?_
  exact forall2_map_self _ _ rest (fun e he =>
    ⟨rfl, fun p hp => storePut_preserves e.2 (digestSegment d) _ p hp,
      storePut_lookup_new e.2 (digestSegment d) _⟩)

/-- Concrete signer fixture: a single ultimately-trusted key. -/
def exSigner : AtomicSigner :=
  { keyring := [("KEYID", .ultimate)], keyid := "KEYID",
    threshold := .undefined, passphrase := "pw" }

/-- Concrete image fixture. -/
def exImage : ImageName :=
  { endpoint := "quay.io", repository := "org/repo", tag := some "v1",
    digest := none }

/-- Concrete digest fixture. -/
def exDigest : String := "sha256:00ff"

/-- Concrete store location fixture. -/
def exLoc : String := "https://sig.example"

/-- The blob produced by signing the digest fixture. -/
def exBlob : SignedBlob := signBlob exSigner exDigest

/-- A world with a single empty signature store. -/
def exWorld : SigWorld := [(exLoc, [])]

/-- The world after signing the digest fixture into `exWorld`. -/
def exWorldSigned : SigWorld :=
  [(exLoc, [(⟨"sha256=00ff", 1⟩, exBlob)])]

/-- The URL returned for the signature published into `exWorld`. -/
def exUrl : String := "https://sig.example/sha256=00ff/signature-1"

theorem atomicsign_ex :
    atomicsign exSigner exWorld exDigest exImage =
      some (exWorldSigned, exUrl) := by
  unfold atomicsign exWorld storePut freeOrdinal occupiedOrdinals
  simp only [List.filter_nil, List.map_nil, firstFreeFrom_nil]
  decide

/-- C6 witness: the theorem applied to the concrete fixtures — signing
into a single empty store places the signature at ordinal 1 and returns
the URL `https://sig.example/sha256=00ff/signature-1`. -/
theorem C6_atomicsign_path_discipline_witness :
    (alookup ([] : SigStore)
        ⟨digestSegment exDigest,
          freeOrdinal ([] : SigStore) (digestSegment exDigest)⟩ = none ∧
      ∀ m, 1 ≤ m → m < freeOrdinal ([] : SigStore) (digestSegment exDigest) →
        alookup ([] : SigStore) ⟨digestSegment exDigest, m⟩ ≠ none) ∧
    List.Forall₂ (fun (e e' : String × SigStore) =>
      e.1 = e'.1 ∧
      (∀ p : SigPath, alookup e.2 p ≠ none →
        alookup e'.2 p = alookup e.2 p) ∧
      alookup e'.2
          ⟨digestSegment exDigest, freeOrdinal e.2 (digestSegment exDigest)⟩ =
        some (signBlob exSigner exDigest)) exWorld exWorldSigned ∧
    exUrl = exLoc ++ "/" ++ digestSegment exDigest ++ "/signature-" ++
      toString (freeOrdinal ([] : SigStore) (digestSegment exDigest)) :=
  C6_atomicsign_path_discipline exSigner exWorld exDigest exImage
    exLoc [] [] rfl exWorldSigned exUrl atomicsign_ex

theorem collectFrom_after_sign (st : SigStore) (pfx : String)
    (blob : SignedBlob) (h : ∀ e ∈ st, e.1.pfx ≠ pfx) :
    collectFrom ((⟨pfx, 1⟩, blob) :: st) pfx 1 (st.length + 1 + 1) =
      [blob] := by
  have h1 : alookup ((⟨pfx, 1⟩, blob) :: st) ⟨pfx, 1⟩ = some blob := by
    simp [alookup]
  have h2 : alookup ((⟨pfx, 1⟩, blob) :: st) ⟨pfx, 2⟩ = none := by
    have hne : (⟨pfx, 1⟩ : SigPath) ≠ ⟨pfx, 2⟩ := by simp
    simp only [alookup, if_neg hne]
    exact alookup_of_clean st pfx 2 h
  simp only [collectFrom, h1, h2]

theorem trust_rank_le_four (t : GPGTrust) : t.rank ≤ 4 := by
  cases t <;> simp [GPGTrust.rank]

theorem mkVerifyResult_of_match (signer : AtomicSigner) (d : String)
    (hkey : alookup signer.keyring signer.keyid = some .ultimate) :
    mkVerifyResult signer d (signBlob signer d) =
      { fingerprint := some signer.keyid, status_atomic := none,
        status_gpg := "signature valid", trust := .ultimate,
        type := "atomicsigner", valid := true } := by
  unfold mkVerifyResult gpgVerify signBlob
  rw [hkey]
  have hth : trustAtLeast GPGTrust.ultimate signer.threshold = true := by
    unfold trustAtLeast
    rw [decide_eq_true_eq]
    exact trust_rank_le_four signer.threshold
  simp [hth]

theorem mkVerifyResult_of_mismatch (signer : AtomicSigner) (d : String)
    (b : SignedBlob)
    (hb : ¬(b.payload.dockerManifestDigest = d ∧
      b.payload.ptype = "atomic container signature")) :
    mkVerifyResult signer d b =
      { fingerprint := none, status_atomic := some "atomic payload mismatch",
        status_gpg := (gpgVerify signer b).status, trust := .undefined,
        type := "gpg", valid := false } := by
  unfold mkVerifyResult
  rw [if_neg hb]

/-- C2: after `atomicsign(d, r)` succeeds — against configured stores
holding no prior signature for that digest, with the signer's key
ultimately trusted in its own keyring — `atomicverify(d, r)` returns a
result with `valid = true`, `fingerprint` equal to the configured signer's
key id, `trust = ULTIMATE`, `statusGpg = "signature valid"`,
`statusAtomic = null` and `type = "atomicsigner"`. -/
theorem C2_sign_verify_roundtrip (signer : AtomicSigner) (world : SigWorld)
    (d : String) (image_name : ImageName) (world' : SigWorld) (url : String)
    (hkey : alookup signer.keyring signer.keyid = some .ultimate)
    (hclean : ∀ e ∈ world, ∀ p ∈ e.2, p.1.pfx ≠ digestSegment d)
    (hsign : atomicsign signer world d image_name = some (world', url)) :
    ∃ res, atomicverify signer world' d image_name = some res ∧
      res.valid = true ∧ res.fingerprint = some signer.keyid ∧
      res.trust = .ultimate ∧ res.status_gpg = "signature valid" ∧
      res.status_atomic = none ∧ res.type = "atomicsigner" := by
  cases world with
  | nil => simp [atomicsign] at hsign
  | cons head rest =>
    obtain ⟨loc0, st0⟩ := head
    have hclean0 : ∀ p ∈ st0, p.1.pfx ≠ digestSegment d :=
      fun p hp => hclean (loc0, st0) (List.mem_cons_self _ _) p hp
    have hfree : freeOrdinal st0 (digestSegment d) = 1 :=
      freeOrdinal_of_clean st0 _ hclean0
    unfold atomicsign at hsign
    simp only [Option.some.injEq, Prod.mk.injEq] at hsign
    obtain ⟨h1, h2⟩ := hsign
    have hst0 : (storePut st0 (digestSegment d) (signBlob signer d)).1 =
        (⟨digestSegment d, 1⟩, signBlob signer d) :: st0 := by
      unfold storePut
      rw [hfree]
    have hres := mkVerifyResult_of_match signer d hkey
    refine ⟨mkVerifyResult signer d (signBlob signer d), ?_,
      by rw [hres], by rw [hres], by rw [hres], by rw [hres],
      by rw [hres], by rw [hres]⟩
    subst h1
    unfold atomicverify collectAll
    simp only [List.map_cons, List.flatten_cons, hst0, List.length_cons]
    rw [collectFrom_after_sign st0 (digestSegment d) (signBlob signer d)
      hclean0]
    simp only [List.cons_append, List.nil_append, List.map_cons]
    rw [List.find?_cons_of_pos _ (by rw [hres])]

/-- C3: verifying when every stored candidate signature for the digest has
an embedded atomic payload that does not match the probed digest (tampered
or not an atomic signature at all) does not raise: it returns a result
with `valid = false`, `fingerprint = null`, a non-null `statusAtomic`,
`trust = UNDEFINED` and `type = "gpg"`, regardless of the raw GPG
status. -/
theorem C3_mismatch_advisory (signer : AtomicSigner) (world : SigWorld)
    (d : String) (image_name : ImageName)
    (hne : collectAll world (digestSegment d) ≠ [])
    (hmis : ∀ b ∈ collectAll world (digestSegment d),
      ¬(b.payload.dockerManifestDigest = d ∧
        b.payload.ptype = "atomic container signature")) :
    ∃ res, atomicverify signer world d image_name = some res ∧
      res.valid = false ∧ res.fingerprint = none ∧
      res.status_atomic = some "atomic payload mismatch" ∧
      res.trust = .undefined ∧ res.type = "gpg" := by
  have hshape : ∀ r ∈ (collectAll world (digestSegment d)).map
      (mkVerifyResult signer d),
      r.valid = false ∧ r.fingerprint = none ∧
      r.status_atomic = some "atomic payload mismatch" ∧
      r.trust = .undefined ∧ r.type = "gpg" := by
    intro r hr
    obtain ⟨b, hb, rfl⟩ := List.mem_map.mp hr
    rw [mkVerifyResult_of_mismatch signer d b (hmis b hb)]
    exact ⟨rfl, rfl, rfl, rfl, rfl⟩
  have hfind : ((collectAll world (digestSegment d)).map
      (mkVerifyResult signer d)).find? (fun r => r.valid) = none := by
    apply List.find?_eq_none.mpr
    intro r hr
    simp [(hshape r hr).1]
  have hmne : (collectAll world (digestSegment d)).map
      (mkVerifyResult signer d) ≠ [] := by
    simp only [ne_eq, List.map_eq_nil_iff]
    exact hne
  have hstep : atomicverify signer world d image_name =
      match ((collectAll world (digestSegment d)).map
        (mkVerifyResult signer d)).find? (fun r => r.valid) with
      | some r => some r
      | none => ((collectAll world (digestSegment d)).map
          (mkVerifyResult signer d)).getLast? := rfl
  rw [hstep, hfind, List.getLast?_eq_getLast_of_ne_nil hmne]
  refine ⟨_, rfl, ?_⟩
  exact hshape _ (List.getLast_mem hmne)

/-- A blob whose payload digest differs from the probed digest. -/
def exBadBlob : SignedBlob :=
  { payload := { dockerManifestDigest := "sha256:eeee",
                 ptype := "atomic container signature" },
    signerKeyId := "KEYID" }

/-- A world with a single store holding only the mismatched blob. -/
def exWorldBad : SigWorld := [(exLoc, [(⟨"sha256=00ff", 1⟩, exBadBlob)])]

/-- C2 witness: the round-trip theorem applied to the concrete fixtures. -/
theorem C2_sign_verify_roundtrip_witness :
    ∃ res, atomicverify exSigner exWorldSigned exDigest exImage =
        some res ∧
      res.valid = true ∧ res.fingerprint = some exSigner.keyid ∧
      res.trust = .ultimate ∧ res.status_gpg = "signature valid" ∧
      res.status_atomic = none ∧ res.type = "atomicsigner" :=
  C2_sign_verify_roundtrip exSigner exWorld exDigest exImage
    exWorldSigned exUrl (by decide) (by decide) atomicsign_ex

/-- C3 witness: the mismatch theorem applied to a store holding one
signature whose embedded digest differs from the probed digest. -/
theorem C3_mismatch_advisory_witness :
    ∃ res, atomicverify exSigner exWorldBad exDigest exImage = some res ∧
      res.valid = false ∧ res.fingerprint = none ∧
      res.status_atomic = some "atomic payload mismatch" ∧
      res.trust = .undefined ∧ res.type = "gpg" :=
  C3_mismatch_advisory exSigner exWorldBad exDigest exImage
    (by decide) (by decide)

end AtomicSignerModel

namespace OcRelease

/-- A component entry of the release's embedded image-references document:
a name label and a digest-qualified image reference. -/
structure Component where
  name : String
  ref : ImageName
deriving DecidableEq

/-- A manifest as the resolver consumes it: its own digest, the digests of
the blobs it references (config and layers), and — for a release image —
the component references embedded through its config blob's
image-references document (empty for ordinary component images). -/
structure Manifest where
  digest : String
  layers : List String
  components : List Component
deriving DecidableEq

/-- The registry world (the transport is an external collaborator):
manifests addressed by image reference, blobs addressed by digest. -/
structure Registry where
  manifests : List (ImageName × Manifest)
  blobs : List (String × String)
deriving DecidableEq

def fetchManifest (reg : Registry) (ref : ImageName) : Option Manifest :=
  alookup reg.manifests ref

def pushManifest (reg : Registry) (ref : ImageName) (m : Manifest) :
    Registry :=
  { reg with manifests := upsert reg.manifests ref m }

def pushBlob (reg : Registry) (d content : String) : Registry :=
  { reg with blobs := upsert reg.blobs d content }

/-- The endpoint-qualified repository namespace recorded for blobs
discovered through a reference (the tests record values such as
`quay.io/openshift-release-dev/ocp-release`). -/
def qualifiedRepo (i : ImageName) : String :=
  i.endpoint ++ "/" ++ i.repository

/-- The tag label recorded for the root release reference in the
manifests map. -/
def tagLabel (i : ImageName) : String :=
  i.tag.getD (i.digest.getD "")

/-- Insert one namespace into a namespace set (modelled as a
first-occurrence-ordered duplicate-free list). -/
def insNs (nss : List String) (ns : String) : List String :=
  if ns ∈ nss then nss else nss ++ [ns]

/-- Merge one discovered blob digest into the aggregate blobs map,
unioning the originating namespace into that digest's namespace set. -/
def addBlob : List (String × List String) → String → String →
    List (String × List String)
  | [], d, ns => [(d, [ns])]
  | (d', nss) :: rest, d, ns =>
    if d' = d then (d', insNs nss ns) :: rest
    else (d', nss) :: addBlob rest d ns

/-- `ReleaseMetadata` as resolved from a release image: the root manifest
digest, the aggregate blob map (digest to namespace set), the manifest map
(reference to tag label), and the configured signature stores and signing
keys. -/
structure TypingGetReleaseMetadata where
  manifest_digest : String
  blobs : List (String × List String)
  manifests : List (ImageName × String)
  signature_stores : List String
  signing_keys : List String
deriving DecidableEq

/-- Modelled from the spec: `get_release_metadata`
(`oc_mirror/ocrelease.py`, absent from `src/`), spec section 4.2 — fetch
the root manifest, decode the embedded component references, fetch every
component's manifest, and merge each discovered blob digest into the
aggregate blobs map, unioning the originating endpoint-qualified
repository namespaces; the manifests map records the root reference under
its tag and each component reference under its name label.  (Signature
verification, spec step 4, is composed separately by the callers.) -/
def get_release_metadata (reg : Registry) (root : ImageName)
    (signature_stores signing_keys : List String) :
    Option TypingGetReleaseMetadata :=
  match fetchManifest reg root with
  | none => none
  | some m =>
    match omapM (fun c => (fetchManifest reg c.ref).map (fun mc => (c, mc)))
        m.components with
    | none => none
    | some cpairs =>
      let pairs := m.layers.map (fun d => (d, qualifiedRepo root)) ++
        (cpairs.map (fun p =>
          p.2.layers.map (fun d => (d, qualifiedRepo p.1.ref)))).flatten
      some {
        manifest_digest := m.digest
        blobs := pairs.foldl (fun b p => addBlob b p.1 p.2) []
        manifests := (root, tagLabel root) ::
          m.components.map (fun c => (c.ref, c.name))
        signature_stores := signature_stores
        signing_keys := signing_keys }

/-- Clone-with-endpoint-replaced derivation on references. -/
def withEndpoint (i : ImageName) (e : String) : ImageName :=
  { i with endpoint := e }

/-- Modelled from the spec: `put_release` (`oc_mirror/ocrelease.py`,
absent from `src/`), spec section 4.4 — push every blob exactly once
(deduplicated by digest, reading content from the source registry), then
push every component manifest at the destination endpoint, and finally
re-tag/push the top-level release manifest at the destination reference,
which always overrides whatever tag or digest it carried at the source.
The `verify` flag from the source signature adds no writes (put-side
verification is not specified). -/
def put_release (reg : Registry) (dest : ImageName)
    (release_metadata : TypingGetReleaseMetadata) (verify : Bool) :
    Option Registry :=
  match ofoldM (fun r p =>
      (alookup reg.blobs p.1).map (fun content => pushBlob r p.1 content))
      reg release_metadata.blobs with
  | none => none
  | some reg1 =>
    match release_metadata.manifests with
    | [] => none
    | (rootRef, _) :: comps =>
      match ofoldM (fun r p =>
          (fetchManifest reg p.1).map
            (fun m => pushManifest r (withEndpoint p.1 dest.endpoint) m))
          reg1 comps with
      | none => none
      | some reg2 =>
        match fetchManifest reg rootRef with
        | none => none
        | some rootM => some (pushManifest reg2 dest rootM)

theorem ofoldM_manifests_invariant {α : Type}
    (f : Registry → α → Option Registry)
    (hf : ∀ r a r', f r a = some r' → r'.manifests = r.manifests) :
    ∀ (l : List α) (r r' : Registry), ofoldM f r l = some r' →
      r'.manifests = r.manifests := by
  intro l
  induction l with
  | nil =>
    intro r r' h
    simp only [ofoldM, Option.some.injEq] at h
    rw [h]
  | cons a as ih =>
    intro r r' h
    unfold ofoldM at h
    cases hf1 : f r a with
    | none => rw [hf1] at h; exact absurd h (by simp)
    | some r1 =>
      rw [hf1] at h
      rw [ih r1 r' h, hf r a r1 hf1]

theorem fetch_pushManifest (reg : Registry) (k x : ImageName)
    (m : Manifest) :
    fetchManifest (pushManifest reg k m) x =
      if x = k then some m else fetchManifest reg x := by
  unfold fetchManifest pushManifest
  exact alookup_upsert reg.manifests k x m

theorem ofoldM_push_other_endpoint (dest : ImageName) (reg : Registry) :
    ∀ (comps : List (ImageName × String)) (r r' : Registry),
      ofoldM (fun r p => (fetchManifest reg p.1).map
        (fun m => pushManifest r (withEndpoint p.1 dest.endpoint) m))
        r comps = some r' →
      ∀ x : ImageName, x.endpoint ≠ dest.endpoint →
        fetchManifest r' x = fetchManifest r x := by
  intro comps
  induction comps with
  | nil =>
    intro r r' h x hx
    simp only [ofoldM, Option.some.injEq] at h
    rw [h]
  | cons p ps ih =>
    intro r r' h x hx
    unfold ofoldM at h
    cases hf : fetchManifest reg p.1 with
    | none => rw [hf] at h; simp at h
    | some m =>
      rw [hf] at h
      simp only [Option.map_some'] at h
      rw [ih _ _ h x hx, fetch_pushManifest]
      rw [if_neg (fun hh => hx (by rw [hh]; rfl))]

theorem alookup_addBlob (b : List (String × List String))
    (d ns d' : String) :
    alookup (addBlob b d ns) d' =
      if d' = d then some (insNs ((alookup b d).getD []) ns)
      else alookup b d' := by
  induction b with
  | nil =>
    by_cases h : d' = d
    · subst h
      simp [addBlob, alookup, insNs]
    · have h2 : ¬ d = d' := fun hh => h hh.symm
      simp [addBlob, alookup, h, h2]
  | cons e rest ih =>
    obtain ⟨d0, nss⟩ := e
    by_cases h0 : d0 = d
    · subst h0
      by_cases h : d' = d0
      · subst h
        simp [addBlob, alookup]
      · have h2 : ¬ d0 = d' := fun hh => h hh.symm
        simp [addBlob, alookup, h, h2]
    · by_cases h : d' = d
      · subst h
        have h2 : ¬ d0 = d' := h0
        simp [addBlob, alookup, h0, h2, ih]
      · by_cases h2 : d0 = d'
        · subst h2
          simp [addBlob, alookup, h0, h, ih]
        · simp [addBlob, alookup, h0, h, h2, ih]

theorem alookup_foldl_addBlob (pairs : List (String × String)) :
    ∀ (b : List (String × List String)) (d : String),
      alookup (pairs.foldl (fun b p => addBlob b p.1 p.2) b) d =
        if (pairs.filter (fun p => p.1 == d)) = [] then alookup b d
        else some (((pairs.filter (fun p => p.1 == d)).map Prod.snd).foldl
          insNs ((alookup b d).getD [])) := by
  induction pairs with
  | nil => intro b d; simp
  | cons p ps ih =>
    intro b d
    obtain ⟨pd, pns⟩ := p
    rw [List.foldl_cons, ih]
    by_cases hp : pd = d
    · subst hp
      have hlook : alookup (addBlob b pd pns) pd =
          some (insNs ((alookup b pd).getD []) pns) := by
        rw [alookup_addBlob, if_pos rfl]
      have hfil : ((pd, pns) :: ps).filter (fun p => p.1 == pd) =
          (pd, pns) :: ps.filter (fun p => p.1 == pd) := by
        simp [List.filter_cons]
      rw [hfil, if_neg (List.cons_ne_nil _ _), List.map_cons,
        List.foldl_cons]
      by_cases hf : (ps.filter (fun p => p.1 == pd)) = []
      · rw [if_pos hf, hlook, hf]
        simp
      · rw [if_neg hf, hlook]
        simp
    · have hlook : alookup (addBlob b pd pns) d = alookup b d := by
        rw [alookup_addBlob, if_neg (fun hh => hp hh.symm)]
      have hfil : ((pd, pns) :: ps).filter (fun p => p.1 == d) =
          ps.filter (fun p => p.1 == d) := by
        simp [List.filter_cons, hp]
      rw [hfil, hlook]

theorem addBlob_keys (b : List (String × List String)) (d ns : String) :
    (addBlob b d ns).map Prod.fst =
      if d ∈ b.map Prod.fst then b.map Prod.fst
      else b.map Prod.fst ++ [d] := by
  induction b with
  | nil => simp [addBlob]
  | cons e rest ih =>
    obtain ⟨d0, nss⟩ := e
    by_cases h0 : d0 = d
    · subst h0
      simp [addBlob]
    · have hne : ¬ d = d0 := fun hh => h0 hh.symm
      simp only [addBlob, if_neg h0, List.map_cons, ih, List.mem_cons]
      by_cases hmem : d ∈ rest.map Prod.fst
      · simp [hmem, hne]
      · simp [hmem, hne]

theorem foldl_addBlob_keys (pairs : List (String × String)) :
    ∀ b, ((pairs.foldl (fun b p => addBlob b p.1 p.2) b).map Prod.fst) =
      (pairs.map Prod.fst).foldl
        (fun ks k => if k ∈ ks then ks else ks ++ [k]) (b.map Prod.fst) := by
  induction pairs with
  | nil => intro b; rfl
  | cons p ps ih =>
    intro b
    simp only [List.foldl_cons, List.map_cons]
    rw [ih, addBlob_keys]

theorem omapM_congr {α β : Type} (f g : α → Option β) (l : List α)
    (h : ∀ a ∈ l, f a = g a) : omapM f l = omapM g l := by
  induction l with
  | nil => rfl
  | cons a as ih =>
    unfold omapM
    rw [h a (List.mem_cons_self a as),
      ih (fun b hb => h b (List.mem_cons_of_mem a hb))]

theorem keys_root_swap (layers : List String) (ns1 ns2 : String)
    (rest : List (String × String)) :
    ((layers.map (fun dg => (dg, ns1)) ++ rest).foldl
      (fun b p => addBlob b p.1 p.2) []).map Prod.fst =
    ((layers.map (fun dg => (dg, ns2)) ++ rest).foldl
      (fun b p => addBlob b p.1 p.2) []).map Prod.fst := by
  rw [foldl_addBlob_keys, foldl_addBlob_keys]
  rw [List.map_append, List.map_append, List.map_map, List.map_map]
  rfl

theorem lookup_root_swap (layers : List String) (ns1 ns2 : String)
    (rest : List (String × String)) (dg : String) (hdg : dg ∉ layers) :
    alookup ((layers.map (fun l => (l, ns1)) ++ rest).foldl
      (fun b p => addBlob b p.1 p.2) []) dg =
    alookup ((layers.map (fun l => (l, ns2)) ++ rest).foldl
      (fun b p => addBlob b p.1 p.2) []) dg := by
  rw [alookup_foldl_addBlob, alookup_foldl_addBlob]
  have hfil : ∀ ns : String,
      (layers.map (fun l => (l, ns))).filter (fun p => p.1 == dg) = [] := by
    intro ns
    rw [List.filter_eq_nil_iff]
    intro p hp
    obtain ⟨l, hl, rfl⟩ := List.mem_map.mp hp
    simp only [beq_iff_eq]
    intro hh
    exact hdg (hh ▸ hl)
  rw [List.filter_append, List.filter_append, hfil ns1, hfil ns2]

/-- C1 (amended): after `put_release` of a resolved release graph to a
destination reference and re-resolving at the destination, the blob-digest
set and the manifest-to-tag mapping are identical to the source's, except
the root release reference, whose entry is the one imposed by the
destination argument; the per-digest namespace sets are identical for
every digest not contributed by the root manifest itself, while blobs the
root manifest contributes are namespaced under the resolving (destination)
reference rather than the source's. -/
theorem C1_put_release_mirror_fidelity (reg : Registry)
    (root dest : ImageName) (S K : List String)
    (md : TypingGetReleaseMetadata) (reg' : Registry) (v : Bool)
    (rootM : Manifest)
    (hroot : fetchManifest reg root = some rootM)
    (hres : get_release_metadata reg root S K = some md)
    (hput : put_release reg dest md v = some reg')
    (hep : ∀ c ∈ rootM.components, c.ref.endpoint ≠ dest.endpoint) :
    ∃ md', get_release_metadata reg' dest S K = some md' ∧
      md'.manifest_digest = md.manifest_digest ∧
      md'.manifests = (dest, tagLabel dest) :: md.manifests.tail ∧
      md'.blobs.map Prod.fst = md.blobs.map Prod.fst ∧
      (∀ dg, dg ∉ rootM.layers →
        alookup md'.blobs dg = alookup md.blobs dg) ∧
      md'.signature_stores = md.signature_stores ∧
      md'.signing_keys = md.signing_keys := by
  unfold get_release_metadata at hres
  rw [hroot] at hres
  dsimp only at hres
  cases hmap : omapM (fun c => (fetchManifest reg c.ref).map
      (fun mc => (c, mc))) rootM.components with
  | none => rw [hmap] at hres; simp at hres
  | some cpairs =>
  rw [hmap] at hres
  dsimp only at hres
  simp only [Option.some.injEq] at hres
  have hman : md.manifests = (root, tagLabel root) ::
      rootM.components.map (fun c => (c.ref, c.name)) := by rw [← hres]
  have hdig : md.manifest_digest = rootM.digest := by rw [← hres]
  have hblobs : md.blobs =
      (rootM.layers.map (fun dg => (dg, qualifiedRepo root)) ++
        (cpairs.map (fun p => p.2.layers.map
          (fun dg => (dg, qualifiedRepo p.1.ref)))).flatten).foldl
        (fun b p => addBlob b p.1 p.2) [] := by rw [← hres]
  have hS : md.signature_stores = S := by rw [← hres]
  have hK : md.signing_keys = K := by rw [← hres]
  unfold put_release at hput
  rw [hman] at hput
  cases hblob : ofoldM (fun r p => (alookup reg.blobs p.1).map
      (fun content => pushBlob r p.1 content)) reg md.blobs with
  | none => rw [hblob] at hput; simp at hput
  | some reg1 =>
  rw [hblob] at hput
  dsimp only at hput
  cases hcomp : ofoldM (fun r p => (fetchManifest reg p.1).map
      (fun m => pushManifest r (withEndpoint p.1 dest.endpoint) m)) reg1
      (rootM.components.map (fun c => (c.ref, c.name))) with
  | none => rw [hcomp] at hput; simp at hput
  | some reg2 =>
  rw [hcomp] at hput
  rw [hroot] at hput
  dsimp only at hput
  simp only [Option.some.injEq] at hput
  subst hput
  have hreg1man : reg1.manifests = reg.manifests := by
    refine ofoldM_manifests_invariant _ ?_ md.blobs reg reg1 hblob
    intro r a r' hh
    cases ha : alookup reg.blobs a.1 with
    | none => rw [ha] at hh; simp at hh
    | some c =>
      rw [ha] at hh
      simp only [Option.map_some', Option.some.injEq] at hh
      rw [← hh]
      rfl
  have hfetch1 : ∀ x, fetchManifest reg1 x = fetchManifest reg x := by
    intro x
    unfold fetchManifest
    rw [hreg1man]
  have hfetch2 : ∀ x : ImageName, x.endpoint ≠ dest.endpoint →
      fetchManifest reg2 x = fetchManifest reg1 x :=
    ofoldM_push_other_endpoint dest reg _ reg1 reg2 hcomp
  have hfetchc : ∀ c ∈ rootM.components,
      fetchManifest (pushManifest reg2 dest rootM) c.ref =
        fetchManifest reg c.ref := by
    intro c hc
    rw [fetch_pushManifest,
      if_neg (fun hh => hep c hc (by rw [hh]))]
    rw [hfetch2 c.ref (hep c hc), hfetch1]
  have hfetchroot : fetchManifest (pushManifest reg2 dest rootM) dest =
      some rootM := by
    rw [fetch_pushManifest, if_pos rfl]
  unfold get_release_metadata
  rw [hfetchroot]
  dsimp only
  rw [omapM_congr
    (fun c => (fetchManifest (pushManifest reg2 dest rootM) c.ref).map
      (fun mc => (c, mc)))
    (fun c => (fetchManifest reg c.ref).map (fun mc => (c, mc)))
    rootM.components (fun c hc => by simp only [hfetchc c hc])]
  rw [hmap]
  dsimp only
  refine ⟨_, rfl, ?_, ?_, ?_, ?_, ?_, ?_⟩
  · dsimp only
    rw [hdig]
  · dsimp only
    rw [hman]
    rfl
  · dsimp only
    rw [hblobs]
    exact keys_root_swap rootM.layers (qualifiedRepo dest)
      (qualifiedRepo root) _
  · intro dg hdg
    dsimp only
    rw [hblobs]
    exact lookup_root_swap rootM.layers (qualifiedRepo dest)
      (qualifiedRepo root) _ dg hdg
  · dsimp only
    rw [hS]
  · dsimp only
    rw [hK]

/-- Concrete component reference of the release fixture. -/
def cexCompRef : ImageName :=
  { endpoint := "quay.io",
    repository := "openshift-release-dev/ocp-v4.0-art-dev",
    tag := none, digest := some "sha256:c1" }

/-- Concrete source root reference of the release fixture. -/
def cexRoot : ImageName :=
  { endpoint := "quay.io",
    repository := "openshift-release-dev/ocp-release",
    tag := some "4.4.6-x86_64", digest := none }

/-- Concrete destination reference (same repository, mirror endpoint). -/
def cexDest : ImageName :=
  { endpoint := "registry.local:5000",
    repository := "openshift-release-dev/ocp-release",
    tag := some "4.4.6-x86_64", digest := none }

/-- The root release manifest: one config blob and one component. -/
def cexRootManifest : Manifest :=
  { digest := "sha256:root", layers := ["sha256:cfg"],
    components :=
      [{ name := "4.4.6-aws-machine-controllers", ref := cexCompRef }] }

/-- The component manifest: a single layer blob. -/
def cexCompManifest : Manifest :=
  { digest := "sha256:c1", layers := ["sha256:l1"], components := [] }

/-- The source registry world of the fixture. -/
def cexReg : Registry :=
  { manifests := [(cexRoot, cexRootManifest), (cexCompRef, cexCompManifest)],
    blobs := [("sha256:cfg", "cfg-bytes"), ("sha256:l1", "l1-bytes")] }

/-- Configured signature stores of the fixture. -/
def cexS : List String := ["https://store.example"]

/-- Configured signing keys of the fixture. -/
def cexK : List String := ["armored-key"]

/-- The metadata resolved from the source fixture. -/
def cexMd : TypingGetReleaseMetadata :=
  { manifest_digest := "sha256:root",
    blobs :=
      [("sha256:cfg", ["quay.io/openshift-release-dev/ocp-release"]),
       ("sha256:l1", ["quay.io/openshift-release-dev/ocp-v4.0-art-dev"])],
    manifests :=
      [(cexRoot, "4.4.6-x86_64"),
       (cexCompRef, "4.4.6-aws-machine-controllers")],
    signature_stores := cexS, signing_keys := cexK }

/-- The component reference translated to the destination endpoint. -/
def cexCompRefLocal : ImageName :=
  { endpoint := "registry.local:5000",
    repository := "openshift-release-dev/ocp-v4.0-art-dev",
    tag := none, digest := some "sha256:c1" }

/-- The registry world after `put_release` of the fixture metadata. -/
def cexRegAfter : Registry :=
  { manifests :=
      [(cexRoot, cexRootManifest), (cexCompRef, cexCompManifest),
       (cexCompRefLocal, cexCompManifest), (cexDest, cexRootManifest)],
    blobs := [("sha256:cfg", "cfg-bytes"), ("sha256:l1", "l1-bytes")] }

/-- The metadata re-resolved at the destination. -/
def cexMdDest : TypingGetReleaseMetadata :=
  { manifest_digest := "sha256:root",
    blobs :=
      [("sha256:cfg",
        ["registry.local:5000/openshift-release-dev/ocp-release"]),
       ("sha256:l1", ["quay.io/openshift-release-dev/ocp-v4.0-art-dev"])],
    manifests :=
      [(cexDest, "4.4.6-x86_64"),
       (cexCompRef, "4.4.6-aws-machine-controllers")],
    signature_stores := cexS, signing_keys := cexK }

/-- C1 counterexample: in the concrete fixture world, after `put_release`
and re-resolving at the destination, the manifest map and the blob-digest
set do match the source's (up to the imposed root entry), but the
namespace set of the blob contributed by the root reference follows the
destination endpoint, so the per-digest namespace sets are not identical
to the source's — the claim as stated fails at this input. -/
theorem C1_put_release_namespace_counterexample :
    get_release_metadata cexReg cexRoot cexS cexK = some cexMd ∧
    put_release cexReg cexDest cexMd false = some cexRegAfter ∧
    get_release_metadata cexRegAfter cexDest cexS cexK = some cexMdDest ∧
    cexMdDest.manifests =
      (cexDest, tagLabel cexDest) :: cexMd.manifests.tail ∧
    cexMdDest.blobs.map Prod.fst = cexMd.blobs.map Prod.fst ∧
    alookup cexMdDest.blobs "sha256:cfg" ≠
      alookup cexMd.blobs "sha256:cfg" := by
  refine ⟨?_, ?_, ?_, ?_, ?_, ?_⟩ <;> decide

/-- C1 witness: the amended theorem applied to the concrete fixture
world. -/
theorem C1_put_release_mirror_fidelity_witness :
    ∃ md', get_release_metadata cexRegAfter cexDest cexS cexK =
        some md' ∧
      md'.manifest_digest = cexMd.manifest_digest ∧
      md'.manifests = (cexDest, tagLabel cexDest) :: cexMd.manifests.tail ∧
      md'.blobs.map Prod.fst = cexMd.blobs.map Prod.fst ∧
      (∀ dg, dg ∉ cexRootManifest.layers →
        alookup md'.blobs dg = alookup cexMd.blobs dg) ∧
      md'.signature_stores = cexMd.signature_stores ∧
      md'.signing_keys = cexMd.signing_keys :=
  C1_put_release_mirror_fidelity cexReg cexRoot cexDest cexS cexK cexMd
    cexRegAfter false cexRootManifest (by decide) (by decide) (by decide)
    (by decide)

end OcRelease

namespace OpRelease

open AtomicSignerModel

/-- One decoded row of the operator index database:
`{package, channel, bundleImage, bundleName, defaultChannelFlag}`
(the database itself is an opaque decodable blob, spec section 4.3). -/
structure IndexRow where
  package : String
  channel : String
  bundleImage : String
  bundleName : String
  defaultChannel : Bool
deriving DecidableEq

/-- One resolved operator: the requested package, the selected channel,
the bundle name, and the bundle's declared related images
(`operator.bundle` / `operator.channel` / `operator.images` in the
tests). -/
structure OperatorRecord where
  package : String
  channel : Option String
  bundle : String
  images : List String
deriving DecidableEq

/-- Errors of operator resolution and mirroring (spec section 7). -/
inductive OpError
  | packageNotFound (package : String)
  | channelNotFound (package channel : String)
  | bundleManifestError (image : String)
  | signatureRequirement
deriving DecidableEq

/-- The catalog-index world: decoded index rows, the related-images
declared by each bundle image, the index image's manifest digest, and the
opaque index database blob. -/
structure OpWorld where
  rows : List IndexRow
  bundles : List (String × List String)
  manifest_digest : String
  index_database : String
deriving DecidableEq

/-- Modelled from the spec: channel selection (spec 4.3 step 2,
`oc_mirror/oprelease.py` absent from `src/`) — a caller-specified channel
must exist for the package (else `ChannelNotFoundError`); with no channel
specified, the channel flagged default is selected (else
`PackageNotFoundError` when the package itself is absent from the
index). -/
def selectRow (rows : List IndexRow) (package : String)
    (channel : Option String) : Except OpError IndexRow :=
  match channel with
  | some ch =>
    match rows.find? (fun row => row.package == package &&
        row.channel == ch) with
    | some row => .ok row
    | none => .error (.channelNotFound package ch)
  | none =>
    match rows.find? (fun row => row.package == package &&
        row.defaultChannel) with
    | some row => .ok row
    | none => .error (.packageNotFound package)

/-- Modelled from the spec: resolve one requested package — select its
row, fetch the selected bundle's manifest and decode its related-images
label (spec 4.3 steps 2-4). -/
def resolveOperator (w : OpWorld) (package : String)
    (channel : Option String) : Except OpError OperatorRecord :=
  match selectRow w.rows package channel with
  | .error e => .error e
  | .ok row =>
    match alookup w.bundles row.bundleImage with
    | none => .error (.bundleManifestError row.bundleImage)
    | some images =>
      .ok { package := package, channel := some row.channel,
            bundle := row.bundleName, images := images }

/-- `OperatorMetadata`: the opaque index database and manifest digest
attached once at the metadata level, plus the resolved operators. -/
structure TypingOperatorMetadata where
  index_database : String
  manifest_digest : String
  operators : List OperatorRecord
deriving DecidableEq

/-- Modelled from the spec: `get_release_metadata`
(`oc_mirror/oprelease.py`, absent from `src/`), spec section 4.3 —
resolve every requested package, then, when `verify` is set, require a
valid signature for the index image's manifest digest via `atomicverify`
(spec 4.3 step 5 / 4.2 step 4), else fail with the signature-requirement
error. -/
def get_release_metadata (w : OpWorld) (signer : AtomicSigner)
    (sigWorld : SigWorld) (index_name : ImageName)
    (package_channel : List (String × Option String)) (verify : Bool) :
    Except OpError TypingOperatorMetadata :=
  match emapM (fun pc => resolveOperator w pc.1 pc.2) package_channel with
  | .error e => .error e
  | .ok ops =>
    if verify then
      match atomicverify signer sigWorld w.manifest_digest index_name with
      | some res =>
        if res.valid then
          .ok { index_database := w.index_database,
                manifest_digest := w.manifest_digest, operators := ops }
        else .error .signatureRequirement
      | none => .error .signatureRequirement
    else
      .ok { index_database := w.index_database,
            manifest_digest := w.manifest_digest, operators := ops }

/-- Modelled from the spec: the writes `put_release` issues for an
operator release (spec 4.4), abstracted as the list of replicated
contents — every resolved bundle and every related image.  The `verify`
argument mirrors the source signature and adds no writes. -/
def put_release (index_name : ImageName)
    (release_metadata : TypingOperatorMetadata) (verify : Bool) :
    List String :=
  release_metadata.operators.map (fun op => op.bundle) ++
    (release_metadata.operators.map (fun op => op.images)).flatten

/-- The mirroring body of the `mirror` subcommand (`op_mirror.py` lines
196-226): resolve from the source with `verify := check_signatures`, then
`put_release` to the destination with `verify := False` ("Already
verified above"); the issued writes are returned. -/
def mirror_flow (w : OpWorld) (signer : AtomicSigner)
    (sigWorld : SigWorld) (index_name_src index_name_dest : ImageName)
    (package_channel : List (String × Option String))
    (check_signatures : Bool) : Except OpError (List String) :=
  match get_release_metadata w signer sigWorld index_name_src
      package_channel check_signatures with
  | .error e => .error e
  | .ok release_metadata =>
    .ok (put_release index_name_dest release_metadata false)

theorem emapM_mem {ε α β : Type} (f : α → Except ε β) :
    ∀ (l : List α) (bs : List β), emapM f l = .ok bs →
      ∀ b ∈ bs, ∃ a ∈ l, f a = .ok b := by
  intro l
  induction l with
  | nil =>
    intro bs h b hb
    simp only [emapM, Except.ok.injEq] at h
    rw [← h] at hb
    exact absurd hb (List.not_mem_nil b)
  | cons a as ih =>
    intro bs h b hb
    unfold emapM at h
    cases hfa : f a with
    | error e => rw [hfa] at h; simp at h
    | ok b0 =>
      rw [hfa] at h
      cases hrest : emapM f as with
      | error e => rw [hrest] at h; simp at h
      | ok bs0 =>
        rw [hrest] at h
        simp only [Except.ok.injEq] at h
        rw [← h] at hb
        rcases List.mem_cons.mp hb with hb0 | hb0
        · exact ⟨a, List.mem_cons_self a as, hb0 ▸ hfa⟩
        · obtain ⟨a', ha', hfa'⟩ := ih bs0 hrest b hb0
          exact ⟨a', List.mem_cons_of_mem a ha', hfa'⟩

theorem resolveOperator_channel_isSome (w : OpWorld) (package : String)
    (channel : Option String) (rec : OperatorRecord)
    (h : resolveOperator w package channel = .ok rec) :
    rec.channel.isSome = true := by
  unfold resolveOperator at h
  cases hs : selectRow w.rows package channel with
  | error e => rw [hs] at h; simp at h
  | ok row =>
    rw [hs] at h
    dsimp only at h
    cases hb : alookup w.bundles row.bundleImage with
    | none => rw [hb] at h; simp at h
    | some images =>
      rw [hb] at h
      simp only [Except.ok.injEq] at h
      rw [← h]
      rfl

theorem emapM_length {ε α β : Type} (f : α → Except ε β) :
    ∀ (l : List α) (bs : List β), emapM f l = .ok bs →
      bs.length = l.length := by
  intro l
  induction l with
  | nil =>
    intro bs h
    simp only [emapM, Except.ok.injEq] at h
    subst h
    rfl
  | cons a as ih =>
    intro bs h
    unfold emapM at h
    cases hfa : f a with
    | error e => rw [hfa] at h; simp at h
    | ok b0 =>
      rw [hfa] at h
      cases hrest : emapM f as with
      | error e => rw [hrest] at h; simp at h
      | ok bs0 =>
        rw [hrest] at h
        simp only [Except.ok.injEq] at h
        rw [← h]
        simp [ih bs0 hrest]

theorem get_release_metadata_ok_operators (w : OpWorld)
    (signer : AtomicSigner) (sigWorld : SigWorld) (index_name : ImageName)
    (pc : List (String × Option String)) (verify : Bool)
    (md : TypingOperatorMetadata)
    (h : get_release_metadata w signer sigWorld index_name pc verify =
      .ok md) :
    ∃ ops, emapM (fun p => resolveOperator w p.1 p.2) pc = .ok ops ∧
      md.operators = ops := by
  unfold get_release_metadata at h
  cases hops : emapM (fun p => resolveOperator w p.1 p.2) pc with
  | error e => rw [hops] at h; simp at h
  | ok ops =>
    rw [hops] at h
    dsimp only at h
    refine ⟨ops, rfl, ?_⟩
    cases verify with
    | false =>
      simp only [Bool.false_eq_true, if_false, Except.ok.injEq] at h
      rw [← h]
    | true =>
      simp only [if_true] at h
      cases hv : atomicverify signer sigWorld w.manifest_digest
          index_name with
      | none => rw [hv] at h; simp at h
      | some res =>
        rw [hv] at h
        dsimp only at h
        cases hval : res.valid with
        | false => rw [hval] at h; simp at h
        | true =>
          rw [hval] at h
          simp only [if_true, Except.ok.injEq] at h
          rw [← h]

/-- The `redhat-operator-index:v4.8` catalog fixture, modelled from the
expectations of `tests/test_oprelease.py`: package `ocs-operator` with
channels `eus-4.8` and `stable-4.8` (the default), each bundle declaring a
related image. -/
def redhatOperatorIndexV48 : OpWorld :=
  { rows :=
      [{ package := "ocs-operator", channel := "eus-4.8",
         bundleImage :=
           "registry.redhat.io/ocs4/ocs-operator-bundle@sha256:6b7a",
         bundleName := "ocs-operator.v4.8.7", defaultChannel := false },
       { package := "ocs-operator", channel := "stable-4.8",
         bundleImage :=
           "registry.redhat.io/ocs4/ocs-operator-bundle@sha256:9c2d",
         bundleName := "ocs-operator.v4.8.9", defaultChannel := true }],
    bundles :=
      [("registry.redhat.io/ocs4/ocs-operator-bundle@sha256:6b7a",
        ["registry.redhat.io/rhceph/rhceph-4-rhel8@sha256:4b16"]),
       ("registry.redhat.io/ocs4/ocs-operator-bundle@sha256:9c2d",
        ["registry.redhat.io/rhceph/rhceph-4-rhel8@sha256:4b16"])],
    manifest_digest := "sha256:1dx", index_database := "index.db" }

/-- The catalog index reference of the fixture. -/
def indexNameV48 : ImageName :=
  { endpoint := "registry.redhat.io",
    repository := "redhat/redhat-operator-index",
    tag := some "v4.8", digest := none }

/-- A destination reference for mirroring the fixture. -/
def indexNameV48Dest : ImageName :=
  { endpoint := "registry.local:5000",
    repository := "redhat/redhat-operator-index",
    tag := some "v4.8", digest := none }

/-- A signer with an empty keyring (signature checking disabled paths). -/
def trivialSigner : AtomicSigner :=
  { keyring := [], keyid := "", threshold := .undefined, passphrase := "" }

/-- The metadata resolved from the fixture for `ocs-operator` with no
channel specified. -/
def mdV48 : TypingOperatorMetadata :=
  { index_database := "index.db", manifest_digest := "sha256:1dx",
    operators :=
      [{ package := "ocs-operator", channel := some "stable-4.8",
         bundle := "ocs-operator.v4.8.9",
         images :=
           ["registry.redhat.io/rhceph/rhceph-4-rhel8@sha256:4b16"] }] }

/-- C5: a caller-specified channel must exist for the package (else
`ChannelNotFoundError`); an absent package yields `PackageNotFoundError`;
with no channel specified the index's default channel is selected, so
every resolved `OperatorRecord` has a non-null channel and one record is
produced per requested package; and resolving the
`redhat-operator-index:v4.8` fixture filtered to `ocs-operator` with no
channel yields exactly one record with a non-null channel and non-empty
related images. -/
theorem C5_operator_channel_selection :
    (∀ (rows : List IndexRow) (package ch : String),
      (∀ row ∈ rows, ¬(row.package = package ∧ row.channel = ch)) →
      selectRow rows package (some ch) =
        .error (.channelNotFound package ch)) ∧
    (∀ (rows : List IndexRow) (package : String),
      (∀ row ∈ rows, row.package ≠ package) →
      selectRow rows package none = .error (.packageNotFound package)) ∧
    (∀ (w : OpWorld) (signer : AtomicSigner) (sigWorld : SigWorld)
        (index_name : ImageName) (pc : List (String × Option String))
        (verify : Bool) (md : TypingOperatorMetadata),
      get_release_metadata w signer sigWorld index_name pc verify =
        .ok md →
      md.operators.length = pc.length ∧
      ∀ rec ∈ md.operators, rec.channel.isSome = true) ∧
    (get_release_metadata redhatOperatorIndexV48 trivialSigner []
        indexNameV48 [("ocs-operator", none)] false = .ok mdV48 ∧
      mdV48.operators.length = 1 ∧
      ∀ rec ∈ mdV48.operators, rec.channel.isSome = true ∧
        rec.images ≠ []) := by
  refine ⟨?_, ?_, ?_, rfl, by decide, by decide⟩
  · intro rows package ch h
    have hfind : rows.find? (fun row => row.package == package &&
        row.channel == ch) = none := by
      apply List.find?_eq_none.mpr
      intro row hrow
      simp only [Bool.and_eq_true, beq_iff_eq]
      exact fun hh => h row hrow hh
    unfold selectRow
    dsimp only
    rw [hfind]
  · intro rows package h
    have hfind : rows.find? (fun row => row.package == package &&
        row.defaultChannel) = none := by
      apply List.find?_eq_none.mpr
      intro row hrow
      simp only [Bool.and_eq_true, beq_iff_eq]
      exact fun hh => h row hrow hh.1
    unfold selectRow
    dsimp only
    rw [hfind]
  · intro w signer sigWorld index_name pc verify md h
    obtain ⟨ops, hops, hmd⟩ :=
      get_release_metadata_ok_operators w signer sigWorld index_name pc
        verify md h
    constructor
    · rw [hmd]
      exact emapM_length _ pc ops hops
    · intro rec hrec
      rw [hmd] at hrec
      obtain ⟨p, hp, hres⟩ := emapM_mem _ pc ops hops rec hrec
      exact resolveOperator_channel_isSome w p.1 p.2 rec hres

/-- C5 witness: the theorem applied at concrete inputs — an empty index
yields the channel/package errors, and the fixture scenario resolves
`ocs-operator` to its default channel with non-empty related images. -/
theorem C5_operator_channel_selection_witness :
    selectRow [] "absent-package" (some "stable") =
      .error (.channelNotFound "absent-package" "stable") ∧
    selectRow [] "absent-package" none =
      .error (.packageNotFound "absent-package") ∧
    (mdV48.operators.length = [("ocs-operator",
        (none : Option String))].length ∧
      ∀ rec ∈ mdV48.operators, rec.channel.isSome = true) :=
  ⟨C5_operator_channel_selection.1 [] "absent-package" "stable"
      (by decide),
   C5_operator_channel_selection.2.1 [] "absent-package" (by decide),
   C5_operator_channel_selection.2.2.1 redhatOperatorIndexV48
      trivialSigner [] indexNameV48 [("ocs-operator", none)] false mdV48
      rfl⟩

/-- C4: with signature checking enabled, when no configured store yields a
valid verification result for the index manifest digest, the mirror flow
fails with the signature-requirement error (raised during source
resolution) and no mirroring write is issued; whenever the flow succeeds,
its writes are exactly those of `put_release` invoked with verification
disabled. -/
theorem C4_signature_requirement_before_mirror (w : OpWorld)
    (signer : AtomicSigner) (sigWorld : SigWorld) (src dest : ImageName)
    (pc : List (String × Option String)) :
    ((∀ res, atomicverify signer sigWorld w.manifest_digest src =
        some res → res.valid = false) →
      ∀ ops, emapM (fun p => resolveOperator w p.1 p.2) pc = .ok ops →
      mirror_flow w signer sigWorld src dest pc true =
        .error .signatureRequirement) ∧
    (∀ (check : Bool) (writes : List String),
      mirror_flow w signer sigWorld src dest pc check = .ok writes →
      ∃ md, get_release_metadata w signer sigWorld src pc check =
          .ok md ∧
        writes = put_release dest md false) := by
  constructor
  · intro hnov ops hops
    have hg : get_release_metadata w signer sigWorld src pc true =
        .error .signatureRequirement := by
      unfold get_release_metadata
      rw [hops]
      dsimp only
      cases hv : atomicverify signer sigWorld w.manifest_digest src with
      | none => rfl
      | some res =>
        dsimp only
        rw [hnov res hv]
        rfl
    unfold mirror_flow
    rw [hg]
  · intro check writes h
    unfold mirror_flow at h
    cases hg : get_release_metadata w signer sigWorld src pc check with
    | error e => rw [hg] at h; simp at h
    | ok md =>
      rw [hg] at h
      simp only [Except.ok.injEq] at h
      exact ⟨md, rfl, h.symm⟩

/-- C4 witness: the theorem applied to the fixture — with an empty
signature world every verification attempt fails, so mirroring with
checking enabled stops with the signature-requirement error; with checking
disabled the flow succeeds and its writes are those of `put_release` with
verification disabled. -/
theorem C4_signature_requirement_before_mirror_witness :
    mirror_flow redhatOperatorIndexV48 trivialSigner [] indexNameV48
      indexNameV48Dest [("ocs-operator", none)] true =
      .error .signatureRequirement ∧
    ∃ md, get_release_metadata redhatOperatorIndexV48 trivialSigner []
        indexNameV48 [("ocs-operator", none)] false = .ok md ∧
      ["ocs-operator.v4.8.9",
        "registry.redhat.io/rhceph/rhceph-4-rhel8@sha256:4b16"] =
        put_release indexNameV48Dest md false :=
  ⟨(C4_signature_requirement_before_mirror redhatOperatorIndexV48
      trivialSigner [] indexNameV48 indexNameV48Dest
      [("ocs-operator", none)]).1
    (fun res h => by simp [atomicverify, collectAll] at h)
    mdV48.operators rfl,
   (C4_signature_requirement_before_mirror redhatOperatorIndexV48
      trivialSigner [] indexNameV48 indexNameV48Dest
      [("ocs-operator", none)]).2 false
    ["ocs-operator.v4.8.9",
      "registry.redhat.io/rhceph/rhceph-4-rhel8@sha256:4b16"]
    rfl⟩

end OpRelease

end OcMirror
